import Mathlib

/-! antenna_del_spam: the per-post moderation workflow of `main.go`.

A shallow embedding of `src/main.go`.

* Dynamic JSON values (`interface{}` as produced by `encoding/json`) are the
  inductive type `JVal`.  A Go `map[string]interface{}` is an association list
  that is read through `lookup` (first binding of a key).
* The remote server is a deterministic state machine `Server σ`: it receives a
  `Request` (URL and JSON body of a POST) in a state and yields a `Response`
  and the next state.  A response is either `failed` (the HTTP helper returned
  an error: the request could not be built or sent) or a `reply` with a status
  code and a body (`none` when the body is not JSON).
* Every function that talks to the server returns the list of requests it
  handed to the HTTP client, in order, together with the next server state.
* Console output (`fmt.Println`) is not modelled.  `json.Marshal` cannot fail
  on the maps built here (strings, a list of strings, the integer 100), so its
  error branches are unreachable and left out.
-/

namespace AntennaDelSpam

/-- Dynamic JSON value, the shape `encoding/json` decodes into `interface{}`:
`nil`, `bool`, `float64` (kept as an integer literal here, only its kind
matters), `string`, `[]interface{}` and `map[string]interface{}`. -/
inductive JVal where
  | null : JVal
  | bool (b : Bool) : JVal
  | num (n : Int) : JVal
  | str (s : String) : JVal
  | arr (items : List JVal) : JVal
  | obj (fields : List (String × JVal)) : JVal

/-- Two-valued map index `v, ok := m[key]`: `none` when the key is absent. -/
def lookup : List (String × JVal) → String → Option JVal
  | [], _ => none
  | (k, v) :: rest, key => if k = key then some v else lookup rest key

/-- One-valued map index `m[key]`: the zero value `nil` when the key is absent. -/
def index (m : List (String × JVal)) (key : String) : JVal :=
  (lookup m key).getD JVal.null

/-- Type assertion `v.(string)`. -/
def asString : JVal → Option String
  | JVal.str s => some s
  | _ => none

/-- Type assertion `v.(map[string]interface{})`. -/
def asMap : JVal → Option (List (String × JVal))
  | JVal.obj fields => some fields
  | _ => none

/-- Type assertion `v.([]interface{})`. -/
def asSlice : JVal → Option (List JVal)
  | JVal.arr items => some items
  | _ => none

/-- Errors built with `fmt.Errorf` in `main.go`. -/
inductive Err where
  | sendFailed : Err
  | decodeFailed : Err
  | unexpectedStatus (status : Nat) : Err
  | notAString (item : JVal) : Err
  | notASlice (data : JVal) : Err

/-- A POST request with content type `application/json`. -/
structure Request where
  url : String
  body : JVal

/-- What the HTTP helper hands back. -/
inductive Response where
  | failed : Response
  | reply (status : Nat) (body : Option JVal) : Response

/-- The remote server (and the transport to it) as a state machine. -/
structure Server (σ : Type) where
  respond : Request → σ → Response × σ

/-- Go `contains(slice, str)`. -/
def contains : List String → String → Bool
  | [], _ => false
  | s :: rest, str => if s = str then true else contains rest str

/-- Loop of `getStringSlice` over the items, `result` being the accumulator. -/
def getStringSliceLoop : List JVal → List String → Except Err (List String)
  | [], result => Except.ok result
  | item :: rest, result =>
    match asString item with
    | some str => getStringSliceLoop rest (result ++ [str])
    | none => Except.error (Err.notAString item)

/-- Go `getStringSlice(data)`. -/
def getStringSlice (data : JVal) : Except Err (List String) :=
  match data with
  | JVal.arr v => getStringSliceLoop v []
  | _ => Except.error (Err.notASlice data)

/-- Go `postRequest(requestData, url)`: send and ignore the outcome. -/
def postRequest {σ : Type} (srv : Server σ) (requestData : JVal) (url : String) (w : σ) :
    List Request × σ :=
  ([⟨url, requestData⟩], (srv.respond ⟨url, requestData⟩ w).2)

/-- Go `getSettings(host, token)`: the status code is not looked at; the body
is decoded into a `map[string]interface{}` (JSON `null` leaves the map nil,
which reads as empty). -/
def getSettings {σ : Type} (srv : Server σ) (host token : String) (w : σ) :
    Except Err (List (String × JVal)) × List Request × σ :=
  let url := "https://" ++ host ++ "/api/admin/meta"
  let requestData := JVal.obj [("i", JVal.str token)]
  let r := srv.respond ⟨url, requestData⟩ w
  match r.1 with
  | Response.failed => (Except.error Err.sendFailed, [⟨url, requestData⟩], r.2)
  | Response.reply _ none => (Except.error Err.decodeFailed, [⟨url, requestData⟩], r.2)
  | Response.reply _ (some (JVal.obj responseBody)) =>
    (Except.ok responseBody, [⟨url, requestData⟩], r.2)
  | Response.reply _ (some JVal.null) => (Except.ok [], [⟨url, requestData⟩], r.2)
  | Response.reply _ (some _) => (Except.error Err.decodeFailed, [⟨url, requestData⟩], r.2)

/-- Go `updateBlockedHosts(host, token, blockedHosts)`. -/
def updateBlockedHosts {σ : Type} (srv : Server σ) (host token : String)
    (blockedHosts : List String) (w : σ) : Except Err Unit × List Request × σ :=
  let url := "https://" ++ host ++ "/api/admin/update-meta"
  let requestData :=
    JVal.obj [("i", JVal.str token), ("blockedHosts", JVal.arr (blockedHosts.map JVal.str))]
  let r := srv.respond ⟨url, requestData⟩ w
  match r.1 with
  | Response.failed => (Except.error Err.sendFailed, [⟨url, requestData⟩], r.2)
  | Response.reply status _ =>
    if status ≠ 200 then (Except.error (Err.unexpectedStatus status), [⟨url, requestData⟩], r.2)
    else (Except.ok (), [⟨url, requestData⟩], r.2)

/-- Go `processElement(host, token, element)`: the requests it issues, in
order, and the server state it leaves. -/
def processElement {σ : Type} (srv : Server σ) (host token : String) (element : JVal) (w : σ) :
    List Request × σ :=
  match element with
  | JVal.obj elem =>
    match asString (index elem "id") with
    | none => ([], w)
    | some id =>
      match asMap (index elem "user") with
      | none => ([], w)
      | some user =>
        let userId := (asString (index user "id")).getD ""
        let userHost := (asString (index user "host")).getD ""
        match asSlice (index elem "mentions") with
        | none => ([], w)
        | some mentions =>
          if mentions.length < 2 then ([], w)
          else
            let requestData_note := JVal.obj [("i", JVal.str token), ("noteId", JVal.str id)]
            let delnote_url := "https://" ++ host ++ "/api/notes/delete"
            let p1 := postRequest srv requestData_note delnote_url w
            let requestData_user := JVal.obj [("i", JVal.str token), ("userId", JVal.str userId)]
            let deluser_url := "https://" ++ host ++ "/api/admin/delete-account"
            let p2 := postRequest srv requestData_user deluser_url p1.2
            let g := getSettings srv host token p2.2
            match g.1 with
            | Except.error _ => (p1.1 ++ p2.1 ++ g.2.1, g.2.2)
            | Except.ok settings =>
              match lookup settings "blockedHosts" with
              | none => (p1.1 ++ p2.1 ++ g.2.1, g.2.2)
              | some blockedHostsInterface =>
                match getStringSlice blockedHostsInterface with
                | Except.error _ => (p1.1 ++ p2.1 ++ g.2.1, g.2.2)
                | Except.ok blockedHosts =>
                  if contains blockedHosts userHost = false then
                    let u := updateBlockedHosts srv host token (blockedHosts ++ [userHost]) g.2.2
                    (p1.1 ++ p2.1 ++ g.2.1 ++ u.2.1, u.2.2)
                  else (p1.1 ++ p2.1 ++ g.2.1, g.2.2)
  | _ => ([], w)

/-- The loop `for i, element := range responseBody` of `main`. -/
def processAll {σ : Type} (srv : Server σ) (host token : String) :
    List JVal → σ → List Request × σ
  | [], w => ([], w)
  | element :: rest, w =>
    let p := processElement srv host token element w
    let q := processAll srv host token rest p.2
    (p.1 ++ q.1, q.2)

/-- Go `main`: `dotenvOk` says whether `godotenv.Load` succeeded (the process
exits otherwise), `getenv` is `os.Getenv`.  The fetch response is decoded into
a `[]interface{}` (JSON `null` leaves the slice nil); its status is not
looked at. -/
def main {σ : Type} (srv : Server σ) (dotenvOk : Bool) (getenv : String → String) (w : σ) :
    List Request × σ :=
  if dotenvOk = false then ([], w)
  else
    let host := getenv "HOST"
    let token := getenv "TOKEN"
    let antennaId := getenv "ANTENNA_ID"
    let antenna_url := "https://" ++ host ++ "/api/antennas/notes"
    let requestData :=
      JVal.obj [("i", JVal.str token), ("antennaId", JVal.str antennaId), ("limit", JVal.num 100)]
    let r := srv.respond ⟨antenna_url, requestData⟩ w
    match r.1 with
    | Response.failed => ([⟨antenna_url, requestData⟩], r.2)
    | Response.reply _ none => ([⟨antenna_url, requestData⟩], r.2)
    | Response.reply _ (some (JVal.arr responseBody)) =>
      let q := processAll srv host token responseBody r.2
      (⟨antenna_url, requestData⟩ :: q.1, q.2)
    | Response.reply _ (some JVal.null) => ([⟨antenna_url, requestData⟩], r.2)
    | Response.reply _ (some _) => ([⟨antenna_url, requestData⟩], r.2)

/-! ## Vocabulary of the specification -/

/-- The delete-note call: POST `/api/notes/delete` with `{i, noteId}`. -/
def deleteNoteCall (host token noteId : String) : Request :=
  ⟨"https://" ++ host ++ "/api/notes/delete",
    JVal.obj [("i", JVal.str token), ("noteId", JVal.str noteId)]⟩

/-- The delete-account call: POST `/api/admin/delete-account` with `{i, userId}`. -/
def deleteAccountCall (host token userId : String) : Request :=
  ⟨"https://" ++ host ++ "/api/admin/delete-account",
    JVal.obj [("i", JVal.str token), ("userId", JVal.str userId)]⟩

/-- The settings read: POST `/api/admin/meta` with `{i}`. -/
def settingsCall (host token : String) : Request :=
  ⟨"https://" ++ host ++ "/api/admin/meta", JVal.obj [("i", JVal.str token)]⟩

/-- The update-meta call: POST `/api/admin/update-meta` with `{i, blockedHosts}`. -/
def updateMetaCall (host token : String) (blockedHosts : List String) : Request :=
  ⟨"https://" ++ host ++ "/api/admin/update-meta",
    JVal.obj [("i", JVal.str token), ("blockedHosts", JVal.arr (blockedHosts.map JVal.str))]⟩

/-- Server state in which `processElement` reads the settings of a flagged
post: after the delete-note and the delete-account request. -/
def afterDeletes {σ : Type} (srv : Server σ) (host token id userId : String) (w : σ) : σ :=
  (srv.respond (deleteAccountCall host token userId)
    (srv.respond (deleteNoteCall host token id) w).2).2

/-- A server that replays a script: each request is answered with the next
response of the list (`failed` once the script is exhausted). -/
def scripted : Server (List Response) where
  respond := fun _ w =>
    match w with
    | [] => (Response.failed, [])
    | r :: rest => (r, rest)

/-- The post of the specification scenario. -/
def scenarioPost : JVal :=
  JVal.obj [("id", JVal.str "n1"),
    ("user", JVal.obj [("id", JVal.str "u1"), ("host", JVal.str "evil.example")]),
    ("mentions", JVal.arr [JVal.obj [], JVal.obj []])]

/-- A settings reply whose `blockedHosts` is the given list of strings. -/
def settingsReply (hosts : List String) : Response :=
  Response.reply 200 (some (JVal.obj [("blockedHosts", JVal.arr (hosts.map JVal.str))]))

/-- The element has a string `id`, an object `user` and a `mentions` array of
at least two entries: the posts `processElement` acts on. -/
def FlaggedPost (element : JVal) (id : String) (user : List (String × JVal)) : Prop :=
  ∃ elem mentions, element = JVal.obj elem ∧
    lookup elem "id" = some (JVal.str id) ∧
    lookup elem "user" = some (JVal.obj user) ∧
    lookup elem "mentions" = some (JVal.arr mentions) ∧
    2 ≤ mentions.length

/-- A flagged post whose author has a string `id` and a string `host`. -/
def WellFormedFlagged (element : JVal) (id userId userHost : String) : Prop :=
  ∃ user, FlaggedPost element id user ∧
    lookup user "id" = some (JVal.str userId) ∧
    lookup user "host" = some (JVal.str userHost)

/-- The string a field is read as with the ok flag dropped: its value when it
is a string, the empty string when it is missing, null or of another type. -/
def ReadsAs (m : List (String × JVal)) (key value : String) : Prop :=
  lookup m key = some (JVal.str value) ∨
    ((∀ s, lookup m key ≠ some (JVal.str s)) ∧ value = "")

/-- The settings read of a flagged post is answered with a JSON object. -/
def SettingsRead {σ : Type} (srv : Server σ) (host token id userId : String) (w : σ)
    (settings : List (String × JVal)) : Prop :=
  ∃ status, (srv.respond (settingsCall host token) (afterDeletes srv host token id userId w)).1
    = Response.reply status (some (JVal.obj settings))

/-- The settings read of a flagged post is answered with an object whose
`blockedHosts` is the array of the strings `hosts`. -/
def BlockedHostsRead {σ : Type} (srv : Server σ) (host token id userId : String) (w : σ)
    (hosts : List String) : Prop :=
  ∃ settings, SettingsRead srv host token id userId w settings ∧
    lookup settings "blockedHosts" = some (JVal.arr (hosts.map JVal.str))

/-- Server state after the settings read of a flagged post. -/
def afterSettings {σ : Type} (srv : Server σ) (host token id userId : String) (w : σ) : σ :=
  (srv.respond (settingsCall host token) (afterDeletes srv host token id userId w)).2

/-- An element `processElement` returns from before any request: anything but
an object with a string `id`, an object `user` and at least two mentions. -/
def Skipped (element : JVal) : Prop :=
  ∀ id user, ¬ FlaggedPost element id user

/-- The part of `processElement` after the mention check (lines 102-154),
with the values read from the post as arguments. -/
def blockStep {σ : Type} (srv : Server σ) (host token id userId userHost : String) (w : σ) :
    List Request × σ :=
  let g := getSettings srv host token (afterDeletes srv host token id userId w)
  match g.1 with
  | Except.error _ =>
    ([deleteNoteCall host token id] ++ [deleteAccountCall host token userId] ++ g.2.1, g.2.2)
  | Except.ok settings =>
    match lookup settings "blockedHosts" with
    | none =>
      ([deleteNoteCall host token id] ++ [deleteAccountCall host token userId] ++ g.2.1, g.2.2)
    | some blockedHostsInterface =>
      match getStringSlice blockedHostsInterface with
      | Except.error _ =>
        ([deleteNoteCall host token id] ++ [deleteAccountCall host token userId] ++ g.2.1, g.2.2)
      | Except.ok blockedHosts =>
        if contains blockedHosts userHost = false then
          let u := updateBlockedHosts srv host token (blockedHosts ++ [userHost]) g.2.2
          ([deleteNoteCall host token id] ++ [deleteAccountCall host token userId] ++ g.2.1
            ++ u.2.1, u.2.2)
        else
          ([deleteNoteCall host token id] ++ [deleteAccountCall host token userId] ++ g.2.1,
            g.2.2)

/-- A request to one of the three mutating endpoints. -/
def Mutating (host : String) (r : Request) : Prop :=
  r.url = "https://" ++ host ++ "/api/notes/delete" ∨
    r.url = "https://" ++ host ++ "/api/admin/delete-account" ∨
    r.url = "https://" ++ host ++ "/api/admin/update-meta"

/-- The initial fetch: POST `/api/antennas/notes` with `{i, antennaId, limit}`. -/
def fetchCall (host token antennaId : String) : Request :=
  ⟨"https://" ++ host ++ "/api/antennas/notes",
    JVal.obj [("i", JVal.str token), ("antennaId", JVal.str antennaId), ("limit", JVal.num 100)]⟩

/-- Server state after the listed elements have been handled one after the
other: a fold of the state `processElement` leaves, from the first element on. -/
def serverAfter {σ : Type} (srv : Server σ) (host token : String) (elements : List JVal)
    (w : σ) : σ :=
  elements.foldl (fun s element => (processElement srv host token element s).2) w

/-- The requests `processElement` issues for the element at position `i` of
the fetched array, in the server state left by handling the elements before
it in order. -/
def callsOfElement {σ : Type} (srv : Server σ) (host token : String) (elements : List JVal)
    (w : σ) (i : Nat) : List Request :=
  match elements[i]? with
  | none => []
  | some element =>
    (processElement srv host token element (serverAfter srv host token (elements.take i) w)).1

/-- A server that keeps the block list: it answers the fetch (a body of three
fields) with the given posts, a settings read (a body of one field) with the
current list, and stores the list of an update-meta request (a body whose
second field is an array); deletions are answered with 204. -/
def persisting (posts : List JVal) : Server (List String) where
  respond := fun req hosts =>
    match req.body with
    | JVal.obj [_, _, _] => (Response.reply 200 (some (JVal.arr posts)), hosts)
    | JVal.obj [_] => (settingsReply hosts, hosts)
    | JVal.obj [_, (_, JVal.arr items)] =>
      match getStringSlice (JVal.arr items) with
      | Except.ok stored => (Response.reply 200 none, stored)
      | Except.error _ => (Response.reply 400 none, hosts)
    | _ => (Response.reply 204 none, hosts)

/-- A second post of the same remote host as the scenario post. -/
def secondPost : JVal :=
  JVal.obj [("id", JVal.str "n2"),
    ("user", JVal.obj [("id", JVal.str "u2"), ("host", JVal.str "evil.example")]),
    ("mentions", JVal.arr [JVal.obj [], JVal.obj [], JVal.obj []])]

/-- Script of the scenario: both deletions fail on the wire, the settings read
yields the given hosts, the update is accepted. -/
def scenarioScript (hosts : List String) : List Response :=
  [Response.failed, Response.reply 500 none, settingsReply hosts, Response.reply 200 none]

/-- A post with two mentions whose author object has a host but no `id`. -/
def anonymousPost : JVal :=
  JVal.obj [("id", JVal.str "n1"),
    ("user", JVal.obj [("host", JVal.str "evil.example")]),
    ("mentions", JVal.arr [JVal.obj [], JVal.obj []])]

/-- A post with two mentions by a local author: `host` is JSON null. -/
def localPost : JVal :=
  JVal.obj [("id", JVal.str "n2"),
    ("user", JVal.obj [("id", JVal.str "u2"), ("host", JVal.null)]),
    ("mentions", JVal.arr [JVal.obj [], JVal.obj []])]

/-- Environment of the scenario. -/
def scenarioEnv (key : String) : String :=
  if key = "HOST" then "misskey.example" else if key = "TOKEN" then "tok" else "antenna1"

/-! ## Lemmas on the helpers -/

theorem contains_eq_true_iff (slice : List String) (str : String) :
    contains slice str = true ↔ str ∈ slice := by
  induction slice with
  | nil => simp [contains]
  | cons s rest ih =>
    by_cases h : s = str
    · simp [contains, h]
    · have h2 : ¬ str = s := fun e => h e.symm
      simp [contains, h, h2, ih]

theorem contains_eq_false_iff (slice : List String) (str : String) :
    contains slice str = false ↔ str ∉ slice := by
  rw [← contains_eq_true_iff]
  cases contains slice str <;> simp

theorem asString_eq_some_iff (v : JVal) (s : String) :
    asString v = some s ↔ v = JVal.str s := by
  cases v <;> simp [asString]

theorem asString_eq_none_iff (v : JVal) : asString v = none ↔ ∀ s, v ≠ JVal.str s := by
  cases v <;> simp [asString]

theorem getStringSliceLoop_strings (hs result : List String) :
    getStringSliceLoop (hs.map JVal.str) result = Except.ok (result ++ hs) := by
  induction hs generalizing result with
  | nil => simp [getStringSliceLoop]
  | cons h rest ih => simp [getStringSliceLoop, asString, ih]

theorem getStringSliceLoop_ok (items : List JVal) (result out : List String)
    (h : getStringSliceLoop items result = Except.ok out) :
    ∃ hs, items = hs.map JVal.str ∧ out = result ++ hs := by
  induction items generalizing result with
  | nil =>
    simp only [getStringSliceLoop, Except.ok.injEq] at h
    exact ⟨[], rfl, by simp [h]⟩
  | cons item rest ih =>
    cases item with
    | str s =>
      simp only [getStringSliceLoop, asString] at h
      obtain ⟨hs, h1, h2⟩ := ih _ h
      exact ⟨s :: hs, by simp [h1], by simp [h2]⟩
    | null => simp [getStringSliceLoop, asString] at h
    | bool b => simp [getStringSliceLoop, asString] at h
    | num n => simp [getStringSliceLoop, asString] at h
    | arr xs => simp [getStringSliceLoop, asString] at h
    | obj kvs => simp [getStringSliceLoop, asString] at h

theorem getStringSlice_ok_iff (data : JVal) (result : List String) :
    getStringSlice data = Except.ok result ↔ data = JVal.arr (result.map JVal.str) := by
  constructor
  · intro h
    cases data with
    | arr items =>
      simp only [getStringSlice] at h
      obtain ⟨hs, h1, h2⟩ := getStringSliceLoop_ok items [] result h
      simp at h2
      simp [h1, h2]
    | null => simp [getStringSlice] at h
    | bool b => simp [getStringSlice] at h
    | num n => simp [getStringSlice] at h
    | str s => simp [getStringSlice] at h
    | obj kvs => simp [getStringSlice] at h
  · intro h
    subst h
    simp [getStringSlice, getStringSliceLoop_strings]

theorem map_str_of_all_strings (items : List JVal)
    (h : ∀ item ∈ items, ∃ s, item = JVal.str s) :
    ∃ hs : List String, items = hs.map JVal.str := by
  induction items with
  | nil => exact ⟨[], rfl⟩
  | cons item rest ih =>
    obtain ⟨s, hs⟩ := h item (by simp)
    obtain ⟨l, hl⟩ := ih (fun x hx => h x (by simp [hx]))
    exact ⟨s :: l, by simp [hs, hl]⟩

theorem getStringSlice_error_iff (data : JVal) :
    (∃ e, getStringSlice data = Except.error e) ↔
      ((∀ items, data ≠ JVal.arr items) ∨
        ∃ items, data = JVal.arr items ∧ ∃ item ∈ items, ∀ s, item ≠ JVal.str s) := by
  constructor
  · rintro ⟨e, he⟩
    by_contra hcon
    push_neg at hcon
    obtain ⟨⟨items, hitems⟩, hall⟩ := hcon
    obtain ⟨hs, hhs⟩ := map_str_of_all_strings items (hall items hitems)
    have := (getStringSlice_ok_iff data hs).2 (by rw [hitems, hhs])
    rw [this] at he
    cases he
  · intro h
    cases hres : getStringSlice data with
    | error e => exact ⟨e, rfl⟩
    | ok out =>
      exfalso
      have hd := (getStringSlice_ok_iff data out).1 hres
      rcases h with h | ⟨items, hi, item, hmem, hns⟩
      · exact h _ hd
      · rw [hd] at hi
        injection hi with hi
        rw [← hi] at hmem
        obtain ⟨s, _, hs⟩ := List.mem_map.1 hmem
        exact hns s hs.symm

/-! ## Lemmas on `processElement` -/

theorem readsAs_getD (m : List (String × JVal)) (key value : String) (h : ReadsAs m key value) :
    (asString (index m key)).getD "" = value := by
  rcases h with h | ⟨h, rfl⟩
  · simp [index, h, asString]
  · cases hl : lookup m key with
    | none => simp [index, hl, asString]
    | some v =>
      cases v with
      | str s => exact absurd hl (h s)
      | null => simp [index, hl, asString]
      | bool b => simp [index, hl, asString]
      | num n => simp [index, hl, asString]
      | arr xs => simp [index, hl, asString]
      | obj kvs => simp [index, hl, asString]

theorem asString_index_eq_some {m : List (String × JVal)} {key s : String}
    (h : asString (index m key) = some s) : lookup m key = some (JVal.str s) := by
  cases hl : lookup m key with
  | none => simp [index, hl, asString] at h
  | some v =>
    rw [asString_eq_some_iff] at h
    simp [index, hl] at h
    rw [h]

theorem asMap_index_eq_some {m : List (String × JVal)} {key : String}
    {fields : List (String × JVal)}
    (h : asMap (index m key) = some fields) : lookup m key = some (JVal.obj fields) := by
  cases hl : lookup m key with
  | none => simp [index, hl, asMap] at h
  | some v => cases v <;> simp_all [index, asMap]

theorem asSlice_index_eq_some {m : List (String × JVal)} {key : String} {items : List JVal}
    (h : asSlice (index m key) = some items) : lookup m key = some (JVal.arr items) := by
  cases hl : lookup m key with
  | none => simp [index, hl, asSlice] at h
  | some v => cases v <;> simp_all [index, asSlice]

/-- An element that is not a flagged post is left without any request. -/
theorem processElement_skipped {σ : Type} (srv : Server σ) (host token : String)
    (element : JVal) (w : σ) (h : Skipped element) :
    processElement srv host token element w = ([], w) := by
  cases element with
  | obj elem =>
    cases hid : asString (index elem "id") with
    | none => simp only [processElement, hid]
    | some id =>
      cases huser : asMap (index elem "user") with
      | none => simp only [processElement, hid, huser]
      | some user =>
        cases hm : asSlice (index elem "mentions") with
        | none => simp only [processElement, hid, huser, hm]
        | some mentions =>
          by_cases hlen : mentions.length < 2
          · simp only [processElement, hid, huser, hm, hlen, if_true]
          · exact absurd ⟨elem, mentions, rfl, asString_index_eq_some hid,
              asMap_index_eq_some huser, asSlice_index_eq_some hm, by omega⟩ (h id user)
  | null => rfl
  | bool b => rfl
  | num n => rfl
  | str s => rfl
  | arr xs => rfl

/-- On a flagged post `processElement` runs the block step with the id of the
post and the author fields read with the ok flag dropped. -/
theorem processElement_flagged {σ : Type} (srv : Server σ) (host token : String)
    (element : JVal) (id : String) (user : List (String × JVal)) (userId userHost : String)
    (w : σ) (hf : FlaggedPost element id user) (huid : ReadsAs user "id" userId)
    (huh : ReadsAs user "host" userHost) :
    processElement srv host token element w = blockStep srv host token id userId userHost w := by
  obtain ⟨elem, mentions, rfl, hid, huser, hm, hlen⟩ := hf
  have h1 := readsAs_getD user "id" userId huid
  have h2 := readsAs_getD user "host" userHost huh
  have e1 : asString (index elem "id") = some id := by simp [index, hid, asString]
  have e2 : asMap (index elem "user") = some user := by simp [index, huser, asMap]
  have e3 : asSlice (index elem "mentions") = some mentions := by simp [index, hm, asSlice]
  have hlen2 : ¬ mentions.length < 2 := by omega
  simp only [processElement, e1, e2, e3, hlen2, if_false, h1, h2]
  rfl

theorem getSettings_requests {σ : Type} (srv : Server σ) (host token : String) (w : σ) :
    (getSettings srv host token w).2 =
      ([settingsCall host token], (srv.respond (settingsCall host token) w).2) := by
  simp only [getSettings, settingsCall]
  split <;> rfl

theorem getSettings_obj {σ : Type} (srv : Server σ) (host token : String) (w : σ)
    (status : Nat) (settings : List (String × JVal))
    (h : (srv.respond (settingsCall host token) w).1
      = Response.reply status (some (JVal.obj settings))) :
    (getSettings srv host token w).1 = Except.ok settings := by
  simp only [settingsCall] at h
  simp only [getSettings, h]

theorem updateBlockedHosts_requests {σ : Type} (srv : Server σ) (host token : String)
    (blockedHosts : List String) (w : σ) :
    (updateBlockedHosts srv host token blockedHosts w).2 =
      ([updateMetaCall host token blockedHosts],
        (srv.respond (updateMetaCall host token blockedHosts) w).2) := by
  simp only [updateBlockedHosts, updateMetaCall]
  split
  · rfl
  · split <;> rfl

/-- The block step when the settings read is answered with an object. -/
theorem blockStep_settingsRead {σ : Type} (srv : Server σ)
    (host token id userId userHost : String) (w : σ) (settings : List (String × JVal))
    (hread : SettingsRead srv host token id userId w settings) :
    blockStep srv host token id userId userHost w =
      match lookup settings "blockedHosts" with
      | none =>
        ([deleteNoteCall host token id, deleteAccountCall host token userId,
          settingsCall host token], afterSettings srv host token id userId w)
      | some blockedHostsInterface =>
        match getStringSlice blockedHostsInterface with
        | Except.error _ =>
          ([deleteNoteCall host token id, deleteAccountCall host token userId,
            settingsCall host token], afterSettings srv host token id userId w)
        | Except.ok blockedHosts =>
          if userHost ∈ blockedHosts then
            ([deleteNoteCall host token id, deleteAccountCall host token userId,
              settingsCall host token], afterSettings srv host token id userId w)
          else
            ([deleteNoteCall host token id, deleteAccountCall host token userId,
              settingsCall host token, updateMetaCall host token (blockedHosts ++ [userHost])],
              (srv.respond (updateMetaCall host token (blockedHosts ++ [userHost]))
                (afterSettings srv host token id userId w)).2) := by
  obtain ⟨status, hresp⟩ := hread
  have hg := getSettings_obj srv host token _ status settings hresp
  simp only [blockStep, hg, getSettings_requests, updateBlockedHosts_requests, afterSettings]
  cases lookup settings "blockedHosts" with
  | none => rfl
  | some v =>
    simp only []
    cases getStringSlice v with
    | error e => rfl
    | ok hosts =>
      simp only []
      by_cases hmem : userHost ∈ hosts
      · have hc : contains hosts userHost = true := (contains_eq_true_iff _ _).2 hmem
        simp [hc, hmem]
      · have hc : contains hosts userHost = false := (contains_eq_false_iff _ _).2 hmem
        simp [hc, hmem]

/-- A flagged post whose settings read yields a list of strings: the two
deletions and the read, then the update when the host is not in the list. -/
theorem processElement_blockedHostsRead {σ : Type} (srv : Server σ) (host token : String)
    (element : JVal) (id : String) (user : List (String × JVal)) (userId userHost : String)
    (hosts : List String) (w : σ)
    (hf : FlaggedPost element id user) (huid : ReadsAs user "id" userId)
    (huh : ReadsAs user "host" userHost)
    (hread : BlockedHostsRead srv host token id userId w hosts) :
    processElement srv host token element w =
      if userHost ∈ hosts then
        ([deleteNoteCall host token id, deleteAccountCall host token userId,
          settingsCall host token], afterSettings srv host token id userId w)
      else
        ([deleteNoteCall host token id, deleteAccountCall host token userId,
          settingsCall host token, updateMetaCall host token (hosts ++ [userHost])],
          (srv.respond (updateMetaCall host token (hosts ++ [userHost]))
            (afterSettings srv host token id userId w)).2) := by
  obtain ⟨settings, hs, hbh⟩ := hread
  have hg : getStringSlice (JVal.arr (hosts.map JVal.str)) = Except.ok hosts :=
    (getStringSlice_ok_iff _ _).2 rfl
  rw [processElement_flagged srv host token element id user userId userHost w hf huid huh,
    blockStep_settingsRead srv host token id userId userHost w settings hs]
  simp only [hbh, hg]

theorem scenarioPost_wellFormed : WellFormedFlagged scenarioPost "n1" "u1" "evil.example" :=
  ⟨[("id", JVal.str "u1"), ("host", JVal.str "evil.example")],
    ⟨_, [JVal.obj [], JVal.obj []], rfl, rfl, rfl, rfl, by decide⟩, rfl, rfl⟩

theorem scenarioScript_read (host token id userId : String) (hosts : List String) :
    BlockedHostsRead scripted host token id userId (scenarioScript hosts) hosts :=
  ⟨[("blockedHosts", JVal.arr (hosts.map JVal.str))], ⟨200, rfl⟩, rfl⟩

theorem wellFormed_readsAs {element : JVal} {id userId userHost : String}
    (h : WellFormedFlagged element id userId userHost) :
    ∃ user, FlaggedPost element id user ∧ ReadsAs user "id" userId ∧
      ReadsAs user "host" userHost := by
  obtain ⟨user, hf, h1, h2⟩ := h
  exact ⟨user, hf, Or.inl h1, Or.inl h2⟩

theorem updateMetaCall_ne_deleteNoteCall (host token id : String) (l : List String) :
    updateMetaCall host token l ≠ deleteNoteCall host token id := by
  simp [updateMetaCall, deleteNoteCall]

theorem updateMetaCall_ne_deleteAccountCall (host token id : String) (l : List String) :
    updateMetaCall host token l ≠ deleteAccountCall host token id := by
  simp [updateMetaCall, deleteAccountCall]

theorem updateMetaCall_ne_settingsCall (host token : String) (l : List String) :
    updateMetaCall host token l ≠ settingsCall host token := by
  simp [updateMetaCall, settingsCall]

theorem updateMetaCall_inj (host token : String) (l1 l2 : List String)
    (h : updateMetaCall host token l1 = updateMetaCall host token l2) : l1 = l2 := by
  simp only [updateMetaCall, Request.mk.injEq, JVal.obj.injEq, List.cons.injEq, Prod.mk.injEq,
    JVal.arr.injEq, true_and, and_true] at h
  exact List.map_injective_iff.2 (fun a b hab => by injection hab) h

theorem no_update_in_reads (host token id userId : String) (l : List String) :
    updateMetaCall host token l ∉ [deleteNoteCall host token id,
      deleteAccountCall host token userId, settingsCall host token] := by
  simp [updateMetaCall_ne_deleteNoteCall, updateMetaCall_ne_deleteAccountCall,
    updateMetaCall_ne_settingsCall]

theorem readsAs_exists (m : List (String × JVal)) (key : String) :
    ∃ value, ReadsAs m key value := by
  by_cases h : ∃ s, lookup m key = some (JVal.str s)
  · obtain ⟨s, hs⟩ := h
    exact ⟨s, Or.inl hs⟩
  · exact ⟨"", Or.inr ⟨fun s hs => h ⟨s, hs⟩, rfl⟩⟩

/-- Whatever the server answers, the block step opens with the delete-note
call, the delete-account call and the settings read. -/
theorem blockStep_opens {σ : Type} (srv : Server σ) (host token id userId userHost : String)
    (w : σ) :
    ∃ rest, (blockStep srv host token id userId userHost w).1 =
      deleteNoteCall host token id :: deleteAccountCall host token userId ::
        settingsCall host token :: rest := by
  simp only [blockStep, getSettings_requests, updateBlockedHosts_requests]
  split
  · exact ⟨[], rfl⟩
  · split
    · exact ⟨[], rfl⟩
    · split
      · exact ⟨[], rfl⟩
      · split
        · exact ⟨[_], rfl⟩
        · exact ⟨[], rfl⟩

theorem processAll_append {σ : Type} (srv : Server σ) (host token : String)
    (xs ys : List JVal) (w : σ) :
    processAll srv host token (xs ++ ys) w =
      ((processAll srv host token xs w).1 ++
          (processAll srv host token ys (processAll srv host token xs w).2).1,
        (processAll srv host token ys (processAll srv host token xs w).2).2) := by
  induction xs generalizing w with
  | nil => simp [processAll]
  | cons x rest ih => simp [processAll, ih, List.append_assoc]

theorem processAll_state {σ : Type} (srv : Server σ) (host token : String)
    (elements : List JVal) (w : σ) :
    (processAll srv host token elements w).2 = serverAfter srv host token elements w := by
  induction elements generalizing w with
  | nil => rfl
  | cons x rest ih => simp [processAll, serverAfter, ih, List.foldl_cons]

theorem callsOfElement_zero {σ : Type} (srv : Server σ) (host token : String)
    (x : JVal) (rest : List JVal) (w : σ) :
    callsOfElement srv host token (x :: rest) w 0 = (processElement srv host token x w).1 := by
  simp [callsOfElement, serverAfter]

theorem callsOfElement_succ {σ : Type} (srv : Server σ) (host token : String)
    (x : JVal) (rest : List JVal) (w : σ) (i : Nat) :
    callsOfElement srv host token (x :: rest) w (i + 1) =
      callsOfElement srv host token rest (processElement srv host token x w).2 i := by
  simp [callsOfElement, serverAfter]

/-- The requests of the loop are those of its elements, position by position,
each in the state folded from the elements before it. -/
theorem processAll_calls {σ : Type} (srv : Server σ) (host token : String)
    (elements : List JVal) (w : σ) :
    (processAll srv host token elements w).1 =
      ((List.range elements.length).map (callsOfElement srv host token elements w)).flatten := by
  induction elements generalizing w with
  | nil => simp [processAll]
  | cons x rest ih =>
    simp only [processAll, List.length_cons, List.range_succ_eq_map, List.map_cons,
      List.flatten_cons, callsOfElement_zero, List.map_map]
    rw [ih]
    congr 2
    apply List.map_congr_left
    intro i _
    simp [callsOfElement_succ]

/-- Dropping an element that is not a flagged post does not change the loop. -/
theorem processAll_drop_skipped {σ : Type} (srv : Server σ) (host token : String)
    (before after : List JVal) (x : JVal) (w : σ) (hskip : Skipped x) :
    processAll srv host token (before ++ x :: after) w =
      processAll srv host token (before ++ after) w := by
  rw [processAll_append, processAll_append]
  simp [processAll, processElement_skipped _ _ _ _ _ hskip]

theorem main_fetched {σ : Type} (srv : Server σ) (getenv : String → String) (w : σ)
    (status : Nat) (elements : List JVal)
    (hfetch : (srv.respond
        (fetchCall (getenv "HOST") (getenv "TOKEN") (getenv "ANTENNA_ID")) w).1
      = Response.reply status (some (JVal.arr elements))) :
    (main srv true getenv w).1 =
      fetchCall (getenv "HOST") (getenv "TOKEN") (getenv "ANTENNA_ID") ::
        (processAll srv (getenv "HOST") (getenv "TOKEN") elements
          (srv.respond (fetchCall (getenv "HOST") (getenv "TOKEN") (getenv "ANTENNA_ID"))
            w).2).1 := by
  simp only [fetchCall] at hfetch
  simp [main, hfetch, fetchCall]

/-- The update is accepted on status 200 only. -/
theorem updateBlockedHosts_ok_iff {σ : Type} (srv : Server σ) (host token : String)
    (blockedHosts : List String) (w : σ) :
    (updateBlockedHosts srv host token blockedHosts w).1 = Except.ok () ↔
      ∃ body, (srv.respond (updateMetaCall host token blockedHosts) w).1
        = Response.reply 200 body := by
  simp only [updateBlockedHosts, updateMetaCall]
  split
  · rename_i h
    simp [h]
  · rename_i status body h
    by_cases hs : status = 200
    · simp [h, hs]
    · simp [h, hs]

/-! ## The claims -/

/-- C1: for a well-formed post with at least two mentions and a settings read
whose `blockedHosts` is a list of strings without the author host, and whatever
the server answers to the two deletions, `processElement` issues exactly, in
this order: delete-note with the post id, delete-account with the author id,
the settings read, and update-meta with the list read followed by the host. -/
theorem C1_flagged_post_unblocked_host {σ : Type} (srv : Server σ) (host token : String)
    (element : JVal) (id userId userHost : String) (hosts : List String) (w : σ)
    (hpost : WellFormedFlagged element id userId userHost)
    (hread : BlockedHostsRead srv host token id userId w hosts)
    (hnot : userHost ∉ hosts) :
    (processElement srv host token element w).1 =
      [deleteNoteCall host token id, deleteAccountCall host token userId,
        settingsCall host token, updateMetaCall host token (hosts ++ [userHost])] := by
  obtain ⟨user, hf, h1, h2⟩ := wellFormed_readsAs hpost
  rw [processElement_blockedHostsRead srv host token element id user userId userHost hosts w
    hf h1 h2 hread, if_neg hnot]

/-- C1 on the scenario of the specification: post n1 of u1 at evil.example,
block list [other.example], both deletions failing on the wire. -/
theorem C1_flagged_post_unblocked_host_witness :
    WellFormedFlagged scenarioPost "n1" "u1" "evil.example" ∧
    BlockedHostsRead scripted "misskey.example" "tok" "n1" "u1"
      (scenarioScript ["other.example"]) ["other.example"] ∧
    "evil.example" ∉ ["other.example"] ∧
    (processElement scripted "misskey.example" "tok" scenarioPost
        (scenarioScript ["other.example"])).1 =
      [deleteNoteCall "misskey.example" "tok" "n1",
        deleteAccountCall "misskey.example" "tok" "u1",
        settingsCall "misskey.example" "tok",
        updateMetaCall "misskey.example" "tok" ["other.example", "evil.example"]] :=
  ⟨scenarioPost_wellFormed, scenarioScript_read _ _ _ _ _, by decide,
    C1_flagged_post_unblocked_host scripted "misskey.example" "tok" scenarioPost "n1" "u1"
      "evil.example" ["other.example"] (scenarioScript ["other.example"])
      scenarioPost_wellFormed (scenarioScript_read _ _ _ _ _) (by decide)⟩

/-- C2: an object whose `mentions` array has fewer than two entries, whatever
its other fields, gets no request at all from `processElement`, and the server
state is untouched. -/
theorem C2_fewer_than_two_mentions {σ : Type} (srv : Server σ) (host token : String)
    (elem : List (String × JVal)) (mentions : List JVal) (w : σ)
    (hm : lookup elem "mentions" = some (JVal.arr mentions))
    (hlen : mentions.length < 2) :
    processElement srv host token (JVal.obj elem) w = ([], w) := by
  apply processElement_skipped
  rintro id user ⟨elem2, mentions2, he, -, -, hm2, hlen2⟩
  injection he with he
  subst he
  rw [hm] at hm2
  injection hm2 with hm2
  injection hm2 with hm2
  subst hm2
  omega

/-- C2 on the scenario post cut down to a single mention. -/
theorem C2_fewer_than_two_mentions_witness :
    lookup [("id", JVal.str "n1"),
        ("user", JVal.obj [("id", JVal.str "u1"), ("host", JVal.str "evil.example")]),
        ("mentions", JVal.arr [JVal.obj []])] "mentions" = some (JVal.arr [JVal.obj []]) ∧
    [JVal.obj []].length < 2 ∧
    processElement scripted "misskey.example" "tok"
      (JVal.obj [("id", JVal.str "n1"),
        ("user", JVal.obj [("id", JVal.str "u1"), ("host", JVal.str "evil.example")]),
        ("mentions", JVal.arr [JVal.obj []])])
      (scenarioScript []) = ([], scenarioScript []) :=
  ⟨rfl, by decide,
    C2_fewer_than_two_mentions scripted "misskey.example" "tok" _ [JVal.obj []]
      (scenarioScript []) rfl (by decide)⟩

/-- C3: for a well-formed post with at least two mentions and a settings read
whose `blockedHosts` already holds the author host, `processElement` issues
the delete-note call, the delete-account call and the settings read, and no
update-meta call with any list. -/
theorem C3_host_already_blocked {σ : Type} (srv : Server σ) (host token : String)
    (element : JVal) (id userId userHost : String) (hosts : List String) (w : σ)
    (hpost : WellFormedFlagged element id userId userHost)
    (hread : BlockedHostsRead srv host token id userId w hosts)
    (hmem : userHost ∈ hosts) :
    (processElement srv host token element w).1 =
        [deleteNoteCall host token id, deleteAccountCall host token userId,
          settingsCall host token] ∧
      ∀ l, updateMetaCall host token l ∉ (processElement srv host token element w).1 := by
  obtain ⟨user, hf, h1, h2⟩ := wellFormed_readsAs hpost
  rw [processElement_blockedHostsRead srv host token element id user userId userHost hosts w
    hf h1 h2 hread, if_pos hmem]
  exact ⟨rfl, fun l => no_update_in_reads host token id userId l⟩

/-- C3 on the scenario of the specification with evil.example already blocked. -/
theorem C3_host_already_blocked_witness :
    WellFormedFlagged scenarioPost "n1" "u1" "evil.example" ∧
    BlockedHostsRead scripted "misskey.example" "tok" "n1" "u1"
      (scenarioScript ["other.example", "evil.example"]) ["other.example", "evil.example"] ∧
    "evil.example" ∈ ["other.example", "evil.example"] ∧
    (processElement scripted "misskey.example" "tok" scenarioPost
        (scenarioScript ["other.example", "evil.example"])).1 =
      [deleteNoteCall "misskey.example" "tok" "n1",
        deleteAccountCall "misskey.example" "tok" "u1",
        settingsCall "misskey.example" "tok"] :=
  ⟨scenarioPost_wellFormed, scenarioScript_read _ _ _ _ _, by decide,
    (C3_host_already_blocked scripted "misskey.example" "tok" scenarioPost "n1" "u1"
      "evil.example" ["other.example", "evil.example"]
      (scenarioScript ["other.example", "evil.example"])
      scenarioPost_wellFormed (scenarioScript_read _ _ _ _ _) (by decide)).1⟩

/-- C4: an element that is not an object, or an object whose `id` is missing
or not a string, or whose `user` is missing or not an object, or whose
`mentions` is missing or not an array, gets no request from `processElement`,
hence none to a mutating endpoint. -/
theorem C4_malformed_post_no_call {σ : Type} (srv : Server σ) (host token : String)
    (element : JVal) (w : σ)
    (h : (∀ elem, element ≠ JVal.obj elem) ∨
      ∃ elem, element = JVal.obj elem ∧
        ((∀ s, lookup elem "id" ≠ some (JVal.str s)) ∨
          (∀ u, lookup elem "user" ≠ some (JVal.obj u)) ∨
          (∀ m, lookup elem "mentions" ≠ some (JVal.arr m)))) :
    processElement srv host token element w = ([], w) ∧
      ∀ r ∈ (processElement srv host token element w).1, ¬ Mutating host r := by
  have hs : processElement srv host token element w = ([], w) := by
    apply processElement_skipped
    rintro id user ⟨elem2, mentions2, he, hid, huser, hm, -⟩
    rcases h with h | ⟨elem, he2, h | h | h⟩
    · exact h _ he
    · rw [he] at he2
      injection he2 with he2
      subst he2
      exact h _ hid
    · rw [he] at he2
      injection he2 with he2
      subst he2
      exact h _ huser
    · rw [he] at he2
      injection he2 with he2
      subst he2
      exact h _ hm
  rw [hs]
  exact ⟨rfl, fun r hr => by cases hr⟩

/-- C4 on a post without `user` that carries three mentions. -/
theorem C4_malformed_post_no_call_witness :
    processElement scripted "misskey.example" "tok"
      (JVal.obj [("id", JVal.str "n1"),
        ("mentions", JVal.arr [JVal.obj [], JVal.obj [], JVal.obj []])])
      (scenarioScript []) = ([], scenarioScript []) :=
  (C4_malformed_post_no_call scripted "misskey.example" "tok"
    (JVal.obj [("id", JVal.str "n1"),
      ("mentions", JVal.arr [JVal.obj [], JVal.obj [], JVal.obj []])])
    (scenarioScript [])
    (Or.inr ⟨_, rfl, Or.inr (Or.inl (fun u hu => by
      simp [lookup] at hu))⟩)).1

/-- C5, counterexample: a post with two mentions whose `user` object has no
`id` is not aborted; the note is deleted, delete-account is sent with the empty
user id, and the host is appended to the block list. -/
theorem C5_missing_user_id_not_aborted :
    lookup [("host", JVal.str "evil.example")] "id" = none ∧
    (processElement scripted "misskey.example" "tok" anonymousPost
        (scenarioScript ["other.example"])).1 =
      [deleteNoteCall "misskey.example" "tok" "n1",
        deleteAccountCall "misskey.example" "tok" "",
        settingsCall "misskey.example" "tok",
        updateMetaCall "misskey.example" "tok" ["other.example", "evil.example"]] :=
  ⟨rfl, rfl⟩

/-- C5, amended: a post object whose `id` is missing or not a string, whose
`user` is missing or not an object, or whose `mentions` is missing or not an
array is aborted with no request.  The nested fields do not abort: for a post
with a string `id`, an object `user` and at least two mentions, whatever
`user.id` and `user.host` are, the requests open with delete-note for the post
id, delete-account for `user.id` read as a string (empty when it is missing,
null or not a string) and the settings read. -/
theorem C5_top_level_fields_abort {σ : Type} (srv : Server σ) (host token : String)
    (elem : List (String × JVal)) (w : σ) :
    (((∀ s, lookup elem "id" ≠ some (JVal.str s)) ∨
        (∀ u, lookup elem "user" ≠ some (JVal.obj u)) ∨
        (∀ m, lookup elem "mentions" ≠ some (JVal.arr m))) →
      processElement srv host token (JVal.obj elem) w = ([], w)) ∧
    (∀ id user userId, FlaggedPost (JVal.obj elem) id user → ReadsAs user "id" userId →
      ∃ rest, (processElement srv host token (JVal.obj elem) w).1 =
        deleteNoteCall host token id :: deleteAccountCall host token userId ::
          settingsCall host token :: rest) := by
  constructor
  · intro h
    apply processElement_skipped
    rintro id user ⟨elem2, mentions2, he, hid, huser, hm, -⟩
    injection he with he
    subst he
    rcases h with h | h | h
    · exact h _ hid
    · exact h _ huser
    · exact h _ hm
  · intro id user userId hf huid
    obtain ⟨userHost, huh⟩ := readsAs_exists user "host"
    rw [processElement_flagged srv host token _ id user userId userHost w hf huid huh]
    exact blockStep_opens srv host token id userId userHost w

/-- C5 amended, on the post without `user.id`, no request being answered. -/
theorem C5_top_level_fields_abort_witness :
    ∃ rest, (processElement scripted "misskey.example" "tok" anonymousPost []).1 =
      deleteNoteCall "misskey.example" "tok" "n1" ::
        deleteAccountCall "misskey.example" "tok" "" ::
        settingsCall "misskey.example" "tok" :: rest :=
  (C5_top_level_fields_abort scripted "misskey.example" "tok" _ []).2 "n1"
    [("host", JVal.str "evil.example")] ""
    ⟨_, [JVal.obj [], JVal.obj []], rfl, rfl, rfl, rfl, by decide⟩
    (Or.inr ⟨fun s hs => by simp [lookup] at hs, rfl⟩)

/-- C6: for a well-formed post with at least two mentions and a settings
object in which `blockedHosts` is absent, or is not an array, or is an array
with an element that is not a string, `processElement` issues exactly the
delete-note call, the delete-account call and the settings read, and no
update-meta call.  `getStringSlice` fails exactly on a value that is not an
array or is an array with a non-string element, and otherwise returns the
strings of the array in their order. -/
theorem C6_bad_block_list_stops {σ : Type} (srv : Server σ) (host token : String)
    (element : JVal) (id userId userHost : String) (settings : List (String × JVal)) (w : σ)
    (hpost : WellFormedFlagged element id userId userHost)
    (hread : SettingsRead srv host token id userId w settings)
    (hbad : lookup settings "blockedHosts" = none ∨
      ∃ v, lookup settings "blockedHosts" = some v ∧
        ((∀ items, v ≠ JVal.arr items) ∨
          ∃ items, v = JVal.arr items ∧ ∃ item ∈ items, ∀ s, item ≠ JVal.str s)) :
    (processElement srv host token element w).1 =
        [deleteNoteCall host token id, deleteAccountCall host token userId,
          settingsCall host token] ∧
      (∀ l, updateMetaCall host token l ∉ (processElement srv host token element w).1) ∧
      (∀ data, (∃ e, getStringSlice data = Except.error e) ↔
        ((∀ items, data ≠ JVal.arr items) ∨
          ∃ items, data = JVal.arr items ∧ ∃ item ∈ items, ∀ s, item ≠ JVal.str s)) ∧
      (∀ data result, getStringSlice data = Except.ok result ↔
        data = JVal.arr (result.map JVal.str)) := by
  obtain ⟨user, hf, h1, h2⟩ := wellFormed_readsAs hpost
  have htrace : (processElement srv host token element w).1 =
      [deleteNoteCall host token id, deleteAccountCall host token userId,
        settingsCall host token] := by
    rw [processElement_flagged srv host token element id user userId userHost w hf h1 h2,
      blockStep_settingsRead srv host token id userId userHost w settings hread]
    rcases hbad with hnone | ⟨v, hv, hv2⟩
    · simp only [hnone]
    · obtain ⟨e, he⟩ := (getStringSlice_error_iff v).2 hv2
      simp only [hv, he]
  refine ⟨htrace, ?_, getStringSlice_error_iff, getStringSlice_ok_iff⟩
  intro l
  rw [htrace]
  exact no_update_in_reads host token id userId l

/-- C6 on the scenario with a settings object `{"blockedHosts": ["a.example", 7]}`. -/
theorem C6_bad_block_list_stops_witness :
    (processElement scripted "misskey.example" "tok" scenarioPost
        [Response.reply 204 none, Response.reply 204 none,
          Response.reply 200 (some (JVal.obj
            [("blockedHosts", JVal.arr [JVal.str "a.example", JVal.num 7])])),
          Response.reply 200 none]).1 =
      [deleteNoteCall "misskey.example" "tok" "n1",
        deleteAccountCall "misskey.example" "tok" "u1",
        settingsCall "misskey.example" "tok"] :=
  (C6_bad_block_list_stops scripted "misskey.example" "tok" scenarioPost "n1" "u1"
    "evil.example" [("blockedHosts", JVal.arr [JVal.str "a.example", JVal.num 7])]
    [Response.reply 204 none, Response.reply 204 none,
      Response.reply 200 (some (JVal.obj
        [("blockedHosts", JVal.arr [JVal.str "a.example", JVal.num 7])])),
      Response.reply 200 none]
    scenarioPost_wellFormed ⟨200, rfl⟩
    (Or.inr ⟨_, rfl, Or.inr ⟨_, rfl, JVal.num 7, by simp, fun s hs => by cases hs⟩⟩)).1

/-- C7: when the update-meta endpoint answers with a status outside 200-299,
`updateBlockedHosts` returns an error, and `processElement` sends nothing after
it: for a well-formed flagged post whose host is not in the list read, the
requests are the delete-note call, the delete-account call, the settings read
and one update-meta call. -/
theorem C7_update_failure_no_retry {σ : Type} (srv : Server σ) (host token : String)
    (element : JVal) (id userId userHost : String) (hosts : List String) (w : σ)
    (status : Nat) (body : Option JVal)
    (hpost : WellFormedFlagged element id userId userHost)
    (hread : BlockedHostsRead srv host token id userId w hosts)
    (hnot : userHost ∉ hosts)
    (hupd : (srv.respond (updateMetaCall host token (hosts ++ [userHost]))
        (afterSettings srv host token id userId w)).1 = Response.reply status body)
    (hstatus : status < 200 ∨ 299 < status) :
    (updateBlockedHosts srv host token (hosts ++ [userHost])
        (afterSettings srv host token id userId w)).1
        = Except.error (Err.unexpectedStatus status) ∧
      (processElement srv host token element w).1 =
        [deleteNoteCall host token id, deleteAccountCall host token userId,
          settingsCall host token, updateMetaCall host token (hosts ++ [userHost])] := by
  constructor
  · have hne : status ≠ 200 := by omega
    simp only [updateMetaCall] at hupd
    simp only [updateBlockedHosts, hupd]
    simp [hne]
  · obtain ⟨user, hf, h1, h2⟩ := wellFormed_readsAs hpost
    rw [processElement_blockedHostsRead srv host token element id user userId userHost hosts w
      hf h1 h2 hread, if_neg hnot]

/-- C7 on the scenario with the update answered by status 500. -/
theorem C7_update_failure_no_retry_witness :
    (updateBlockedHosts scripted "misskey.example" "tok" (["other.example"] ++ ["evil.example"])
        [Response.reply 500 none]).1 = Except.error (Err.unexpectedStatus 500) ∧
      (processElement scripted "misskey.example" "tok" scenarioPost
          [Response.reply 204 none, Response.reply 204 none, settingsReply ["other.example"],
            Response.reply 500 none]).1 =
        [deleteNoteCall "misskey.example" "tok" "n1",
          deleteAccountCall "misskey.example" "tok" "u1",
          settingsCall "misskey.example" "tok",
          updateMetaCall "misskey.example" "tok" (["other.example"] ++ ["evil.example"])] :=
  C7_update_failure_no_retry scripted "misskey.example" "tok" scenarioPost "n1" "u1"
    "evil.example" ["other.example"]
    [Response.reply 204 none, Response.reply 204 none, settingsReply ["other.example"],
      Response.reply 500 none] 500 none
    scenarioPost_wellFormed ⟨_, ⟨200, rfl⟩, rfl⟩ (by decide) rfl (by decide)

/-- C8: for a well-formed flagged post and a settings read whose `blockedHosts`
is a list of pairwise distinct strings, every list that `processElement` sends
in an update-meta call has pairwise distinct entries and starts with the list
read, entry by entry in the same order. -/
theorem C8_update_keeps_distinct {σ : Type} (srv : Server σ) (host token : String)
    (element : JVal) (id userId userHost : String) (hosts : List String) (w : σ)
    (hpost : WellFormedFlagged element id userId userHost)
    (hread : BlockedHostsRead srv host token id userId w hosts)
    (hdistinct : hosts.Nodup) :
    ∀ l, updateMetaCall host token l ∈ (processElement srv host token element w).1 →
      l.Nodup ∧ hosts <+: l := by
  obtain ⟨user, hf, h1, h2⟩ := wellFormed_readsAs hpost
  intro l hl
  rw [processElement_blockedHostsRead srv host token element id user userId userHost hosts w
    hf h1 h2 hread] at hl
  by_cases hmem : userHost ∈ hosts
  · rw [if_pos hmem] at hl
    exact absurd hl (no_update_in_reads host token id userId l)
  · rw [if_neg hmem] at hl
    simp only [List.mem_cons, updateMetaCall_ne_deleteNoteCall,
      updateMetaCall_ne_deleteAccountCall, updateMetaCall_ne_settingsCall, false_or,
      List.mem_singleton, List.not_mem_nil, or_false] at hl
    have hl2 := updateMetaCall_inj host token _ _ hl
    subst hl2
    refine ⟨?_, List.prefix_append hosts [userHost]⟩
    rw [List.nodup_append]
    refine ⟨hdistinct, List.nodup_singleton _, ?_⟩
    intro a ha hb
    rw [List.mem_singleton] at hb
    subst hb
    exact hmem ha

/-- C8 on the scenario with two distinct hosts read: the update-meta call of
the run carries a duplicate-free list that extends the list read. -/
theorem C8_update_keeps_distinct_witness :
    updateMetaCall "misskey.example" "tok" ["a.example", "b.example", "evil.example"] ∈
        (processElement scripted "misskey.example" "tok" scenarioPost
          (scenarioScript ["a.example", "b.example"])).1 ∧
      ["a.example", "b.example", "evil.example"].Nodup ∧
      ["a.example", "b.example"] <+: ["a.example", "b.example", "evil.example"] :=
  ⟨List.Mem.tail _ (List.Mem.tail _ (List.Mem.tail _ (List.Mem.head _))),
    C8_update_keeps_distinct scripted "misskey.example" "tok" scenarioPost "n1" "u1"
      "evil.example" ["a.example", "b.example"] (scenarioScript ["a.example", "b.example"])
      scenarioPost_wellFormed (scenarioScript_read _ _ _ _ _) (by decide)
      ["a.example", "b.example", "evil.example"]
      (List.Mem.tail _ (List.Mem.tail _ (List.Mem.tail _ (List.Mem.head _))))⟩

/-- C9: when the fetch is answered with an array, the requests of the run
after the fetch are the concatenation, in the order of the array, of the
requests `processElement` issues for each element, each in the server state
obtained by handling the elements before it one after the other; an element
that is not a flagged post contributes nothing and the run issues the very
requests it would issue were that element absent from the array, so the
elements after it are still processed. -/
theorem C9_run_concatenates {σ : Type} (srv : Server σ) (getenv : String → String) (w : σ)
    (status : Nat) (elements : List JVal)
    (hfetch : (srv.respond
        (fetchCall (getenv "HOST") (getenv "TOKEN") (getenv "ANTENNA_ID")) w).1
      = Response.reply status (some (JVal.arr elements))) :
    (main srv true getenv w).1 =
        fetchCall (getenv "HOST") (getenv "TOKEN") (getenv "ANTENNA_ID") ::
          ((List.range elements.length).map
            (callsOfElement srv (getenv "HOST") (getenv "TOKEN") elements
              (srv.respond (fetchCall (getenv "HOST") (getenv "TOKEN") (getenv "ANTENNA_ID"))
                w).2)).flatten ∧
      ∀ before x after, elements = before ++ x :: after → Skipped x →
        callsOfElement srv (getenv "HOST") (getenv "TOKEN") elements
            (srv.respond (fetchCall (getenv "HOST") (getenv "TOKEN") (getenv "ANTENNA_ID"))
              w).2 before.length = [] ∧
          (main srv true getenv w).1 =
            fetchCall (getenv "HOST") (getenv "TOKEN") (getenv "ANTENNA_ID") ::
              ((List.range (before ++ after).length).map
                (callsOfElement srv (getenv "HOST") (getenv "TOKEN") (before ++ after)
                  (srv.respond
                    (fetchCall (getenv "HOST") (getenv "TOKEN") (getenv "ANTENNA_ID"))
                    w).2)).flatten := by
  have hmain := main_fetched srv getenv w status elements hfetch
  refine ⟨by rw [hmain, processAll_calls], ?_⟩
  intro before x after hsplit hskip
  subst hsplit
  constructor
  · have hget : (before ++ x :: after)[before.length]? = some x := by
      rw [List.getElem?_append_right (Nat.le_refl _)]
      simp
    simp only [callsOfElement, hget, processElement_skipped _ _ _ _ _ hskip]
  · rw [hmain, processAll_drop_skipped _ _ _ _ _ _ _ hskip, processAll_calls]

/-- C9 on a server that keeps the block list, for a fetch of the scenario
post, a malformed element (a number) and a second post of the same host: the
first post gets its four requests, the number none, and the second post, read
in the state the first one left, finds the host blocked and gets three. -/
theorem C9_run_concatenates_witness :
    (main (persisting [scenarioPost, JVal.num 3, secondPost]) true scenarioEnv
        ["other.example"]).1 =
      [fetchCall "misskey.example" "tok" "antenna1",
        deleteNoteCall "misskey.example" "tok" "n1",
        deleteAccountCall "misskey.example" "tok" "u1",
        settingsCall "misskey.example" "tok",
        updateMetaCall "misskey.example" "tok" ["other.example", "evil.example"],
        deleteNoteCall "misskey.example" "tok" "n2",
        deleteAccountCall "misskey.example" "tok" "u2",
        settingsCall "misskey.example" "tok"] ∧
      callsOfElement (persisting [scenarioPost, JVal.num 3, secondPost])
        (scenarioEnv "HOST") (scenarioEnv "TOKEN") [scenarioPost, JVal.num 3, secondPost]
        ["other.example"] 1 = [] :=
  ⟨((C9_run_concatenates (persisting [scenarioPost, JVal.num 3, secondPost]) scenarioEnv
      ["other.example"] 200 [scenarioPost, JVal.num 3, secondPost] rfl).1).trans rfl,
    ((C9_run_concatenates (persisting [scenarioPost, JVal.num 3, secondPost]) scenarioEnv
      ["other.example"] 200 [scenarioPost, JVal.num 3, secondPost] rfl).2
      [scenarioPost] (JVal.num 3) [secondPost] rfl
      (fun id user hf => by
        obtain ⟨elem, mentions, he, -⟩ := hf
        cases he)).1⟩

/-- C10: for a post with a string `id`, an object `user` and at least two
mentions whose `user.host` is missing, null or not a string, the host is read
as the empty string: with a settings read whose `blockedHosts` is a list of
strings without the empty string, `processElement` sends an update-meta call
whose list is the list read followed by the empty string. -/
theorem C10_local_author_blocks_empty_host {σ : Type} (srv : Server σ) (host token : String)
    (element : JVal) (id : String) (user : List (String × JVal)) (userId : String)
    (hosts : List String) (w : σ)
    (hpost : FlaggedPost element id user)
    (huid : ReadsAs user "id" userId)
    (hhost : ∀ s, lookup user "host" ≠ some (JVal.str s))
    (hread : BlockedHostsRead srv host token id userId w hosts)
    (hnot : "" ∉ hosts) :
    (processElement srv host token element w).1 =
      [deleteNoteCall host token id, deleteAccountCall host token userId,
        settingsCall host token, updateMetaCall host token (hosts ++ [""])] := by
  rw [processElement_blockedHostsRead srv host token element id user userId "" hosts w
    hpost huid (Or.inr ⟨hhost, rfl⟩) hread, if_neg hnot]

/-- C10 on a post of a local author (`host` null) with block list [other.example]. -/
theorem C10_local_author_blocks_empty_host_witness :
    (processElement scripted "misskey.example" "tok" localPost
        (scenarioScript ["other.example"])).1 =
      [deleteNoteCall "misskey.example" "tok" "n2",
        deleteAccountCall "misskey.example" "tok" "u2",
        settingsCall "misskey.example" "tok",
        updateMetaCall "misskey.example" "tok" (["other.example"] ++ [""])] :=
  C10_local_author_blocks_empty_host scripted "misskey.example" "tok" localPost "n2"
    [("id", JVal.str "u2"), ("host", JVal.null)] "u2" ["other.example"]
    (scenarioScript ["other.example"])
    ⟨_, [JVal.obj [], JVal.obj []], rfl, rfl, rfl, rfl, by decide⟩
    (Or.inl rfl) (fun s hs => by simp [lookup] at hs)
    (scenarioScript_read _ _ _ _ _) (by decide)

end AntennaDelSpam
